import Mathlib

/-!
Shallow embedding of the go-authgate/oauth-cli OAuth 2.0 PKCE client core:
the callback listener's request classification and single-delivery result
machinery, the PKCE generator, the multi-client token store, the advisory
file lock, and the refresh-token handling. Each definition is translated
from the corresponding Go function; machine integers are modelled as Nat
with explicit reductions mod 2^32 where the source wraps.
-/

namespace OAuthCli

/-- `TokenStorage` mirrors the Go struct holding persisted OAuth tokens for
one client. `ExpiresAt` is modelled as an absolute timestamp in seconds. -/
structure TokenStorage where
  accessToken : String
  refreshToken : String
  tokenType : String
  expiresAt : Nat
  clientID : String
  deriving Repr, DecidableEq

/-- `ErrorResponse` mirrors the Go OAuth error payload struct. -/
structure ErrorResponse where
  error : String
  errorDescription : String
  deriving Repr, DecidableEq

/-! ## Callback request classification (startCallbackServer handler) -/

/-- A parsed URL query, as the handler sees it through `r.URL.Query()`:
a list of key/value pairs. -/
structure CallbackQuery where
  params : List (String × String)
  deriving Repr, DecidableEq

/-- `qGet` mirrors Go's `url.Values.Get`: the first value associated to the
key, or the empty string when the parameter is absent. -/
def qGet (q : CallbackQuery) (key : String) : String :=
  match q.params.find? (fun p => p.1 == key) with
  | some p => p.2
  | none => ""

/-- Whether the query carries the parameter at all (used to express claims
about absent parameters). -/
def hasParam (q : CallbackQuery) (key : String) : Bool :=
  q.params.any (fun p => p.1 == key)

/-- Outcome of the handler's classification of one request, before any
shared-state interaction: either a terminal failure page/result with an
error code and description, or a decision to run the token exchange with
the received authorization code. -/
inductive HandlerOutcome where
  | failure (code desc : String)
  | runExchange (code : String)
  deriving Repr, DecidableEq

/-- `classifyCallback` is the branch structure of the `/callback` handler in
`startCallbackServer`: OAuth `error` parameter first, then the CSRF `state`
comparison against `expectedState`, then the non-empty `code` requirement,
and only then the exchange. -/
def classifyCallback (expectedState : String) (q : CallbackQuery) : HandlerOutcome :=
  let oauthErr := qGet q "error"
  if oauthErr ≠ "" then
    .failure oauthErr (qGet q "error_description")
  else
    let state := qGet q "state"
    if state ≠ expectedState then
      .failure "state_mismatch" "state parameter mismatch"
    else
      let code := qGet q "code"
      if code = "" then
        .failure "missing_code" "code parameter missing"
      else
        .runExchange code

/-! ## Token response validation -/

/-- `validateTokenResponse` performs the source's sanity checks on a token
response; `none` means the Go function returned a nil error, `some msg`
identifies which check rejected. `expiresIn` is the Go `int`, modelled as
`Int`. -/
def validateTokenResponse (accessToken tokenType : String) (expiresIn : Int) :
    Option String :=
  if accessToken = "" then
    some "access_token is empty"
  else if accessToken.length < 10 then
    some "access_token is too short"
  else if expiresIn ≤ 0 then
    some "expires_in must be positive"
  else if tokenType ≠ "" ∧ tokenType ≠ "Bearer" then
    some "unexpected token_type"
  else
    none

/-! ## Token store (loadTokens / saveTokens at the file-content level)

The token file parses (when readable and well formed) into
`TokenStorageMap`, a map from client id to `TokenStorage`. The map is
modelled extensionally as `String → Option TokenStorage`; a file state of
`none` covers both a missing file and one whose contents fail to parse. -/

/-- The `tokens` map of a parsed `TokenStorageMap`. -/
def TokenMap : Type := String → Option TokenStorage

/-- `loadTokens` (file-content level): a missing or unparsable file is an
error, as is an absent entry for the configured client id; otherwise the
entry stored under `configClientID` is returned. -/
def loadTokens (configClientID : String) (file : Option TokenMap) :
    Except String TokenStorage :=
  match file with
  | none => .error "failed to read or parse token file"
  | some m =>
    match m configClientID with
    | some storage => .ok storage
    | none => .error "no tokens found for client_id"

/-- The client id `saveTokens` files the entry under: the storage's own
`clientID`, defaulted to the configured client id when empty. -/
def effectiveStorage (configClientID : String) (storage : TokenStorage) : TokenStorage :=
  if storage.clientID = "" then { storage with clientID := configClientID } else storage

/-- `saveTokens` (file-content level): read the existing file, treating a
missing or corrupt file as an empty map, and insert the storage under its
client id, leaving every other key untouched. -/
def saveTokens (configClientID : String) (storage : TokenStorage)
    (file : Option TokenMap) : TokenMap :=
  let st := effectiveStorage configClientID storage
  let m : TokenMap := match file with
    | some m => m
    | none => fun _ => none
  fun k => if k = st.clientID then some st else m k

/-! ## Token refresh (refreshAccessToken response handling)

`refreshAccessToken` builds the request, posts it, and then classifies the
HTTP response. The request/transport part is the out-of-scope collaborator;
what is embedded is the response handling from the status check onward. The
two `json.Unmarshal` calls are modelled by carrying their outcomes in the
response value: `parsedError` is the result of unmarshalling the body into
`ErrorResponse` (`none` when the body is not valid JSON for it), and
`parsedToken` the result of unmarshalling it into the token-response
struct. -/

/-- The token-response struct `refreshAccessToken` unmarshals a 200 body
into. -/
structure TokenResponse where
  accessToken : String
  refreshToken : String
  tokenType : String
  expiresIn : Int
  deriving Repr, DecidableEq

/-- An HTTP response as seen by `refreshAccessToken` after the body has
been read, together with the outcomes of the two possible unmarshals of
that body. -/
structure RefreshHTTPResponse where
  status : Nat
  body : String
  parsedError : Option ErrorResponse
  parsedToken : Option TokenResponse
  deriving Repr, DecidableEq

/-- The errors `refreshAccessToken` can return. `refreshTokenExpired` is
the distinguished sentinel `ErrRefreshTokenExpired`; every other
constructor corresponds to a fresh `fmt.Errorf` error, which in Go is never
identical to the sentinel. -/
inductive RefreshError where
  | refreshTokenExpired
  | oauthError (code desc : String)
  | statusError (status : Nat) (body : String)
  | parseFailure
  | invalidResponse (msg : String)
  deriving Repr, DecidableEq

/-- `refreshAccessToken`, from the point where the response status is
inspected: non-200 statuses are classified into `ErrRefreshTokenExpired`
(body unmarshals into an error object whose `error` is `invalid_grant` or
`invalid_token`), a code/description error, or a raw status error; a 200
body is unmarshalled, validated, and turned into a `TokenStorage` whose
refresh token falls back to the one passed in when the response omits one.
`now` is the instant the response is processed. -/
def refreshAccessToken (configClientID refreshToken : String) (now : Nat)
    (resp : RefreshHTTPResponse) : Except RefreshError TokenStorage :=
  if resp.status ≠ 200 then
    match resp.parsedError with
    | some errResp =>
      if errResp.error = "invalid_grant" ∨ errResp.error = "invalid_token" then
        .error .refreshTokenExpired
      else
        .error (.oauthError errResp.error errResp.errorDescription)
    | none => .error (.statusError resp.status resp.body)
  else
    match resp.parsedToken with
    | none => .error .parseFailure
    | some tokenResp =>
      match validateTokenResponse tokenResp.accessToken tokenResp.tokenType
          tokenResp.expiresIn with
      | some msg => .error (.invalidResponse msg)
      | none =>
        let newRefreshToken :=
          if tokenResp.refreshToken = "" then refreshToken else tokenResp.refreshToken
        .ok {
          accessToken := tokenResp.accessToken
          refreshToken := newRefreshToken
          tokenType := tokenResp.tokenType
          expiresAt := now + tokenResp.expiresIn.toNat
          clientID := configClientID
        }

/-! ## saveTokens write path (temp file, rename, cleanup)

The persistence tail of `saveTokens` at the filesystem level: the relevant
file system state is the contents of the token file and of its `.tmp`
sibling; each operation either succeeds with its effect or fails with no
effect, as dictated by an oracle. -/

/-- File contents are opaque data. -/
structure FSState where
  target : Option (List Nat)
  temp : Option (List Nat)
  deriving Repr, DecidableEq

/-- Which of the three filesystem operations in the write path fail; a
field of `none` means success, `some e` failure with error detail `e`. -/
structure FSOracle where
  writeErr : Option String
  renameErr : Option String
  removeErr : Option String
  deriving Repr, DecidableEq

/-- The error returned by the write path; `renameFailed` carries the
original rename error and, when removing the temp file also failed, that
error too, matching the combined `fmt.Errorf` in the source. -/
inductive SaveError where
  | writeTempFailed (e : String)
  | renameFailed (renameE : String) (removeE : Option String)
  deriving Repr, DecidableEq

/-- Trace of the write path: whether the temp-file removal was attempted. -/
structure SaveTrace where
  removeAttempted : Bool
  deriving Repr, DecidableEq

/-- The tail of `saveTokens` after serialization: write the data to the
temp file, rename it over the token file, and on rename failure attempt to
remove the temp file, surfacing the rename error (combined with the removal
error when that fails too). -/
def saveTokensWrite (oracle : FSOracle) (data : List Nat) (fs : FSState) :
    FSState × Option SaveError × SaveTrace :=
  match oracle.writeErr with
  | some e => (fs, some (.writeTempFailed e), ⟨false⟩)
  | none =>
    let fs1 : FSState := { fs with temp := some data }
    match oracle.renameErr with
    | none => ({ target := fs1.temp, temp := none }, none, ⟨false⟩)
    | some re =>
      match oracle.removeErr with
      | none => ({ fs1 with temp := none }, some (.renameFailed re none), ⟨true⟩)
      | some rme => (fs1, some (.renameFailed re (some rme)), ⟨true⟩)

/-! ## Advisory file lock (acquireFileLock) -/

/-- Outcome of one exclusive-create attempt on the lock file, as the
environment presents it: creation succeeded; the file already exists with
the given age in seconds since its modification time (and whether a removal
of it would succeed); the file exists but `os.Stat` fails; or creation
failed with some other error. -/
inductive CreateOutcome where
  | created
  | existsAge (ageSec : Nat) (removeOk : Bool)
  | existsStatErr
  | createErr
  deriving Repr, DecidableEq

/-- Observable actions of `acquireFileLock`: an exclusive-create attempt,
a removal of a stale lock file, and a sleep of the given milliseconds. -/
inductive LockAction where
  | create (attempt : Nat)
  | removeStale (attempt : Nat)
  | sleep (ms : Nat)
  deriving Repr, DecidableEq

/-- Result of `acquireFileLock`. -/
inductive LockResult where
  | acquired (attempt : Nat)
  | removeError (attempt : Nat)
  | createError (attempt : Nat)
  | timeout
  deriving Repr, DecidableEq

/-- The retry loop of `acquireFileLock`: at attempt `i` with `fuel`
iterations left, try the exclusive create; on success return the lock; if
the file exists and its modification time is over 30 seconds old, remove
it (a failed removal aborts with an error) and retry immediately; if it
exists but is fresh, or stat fails, sleep 100ms and retry; any other create
failure aborts. Exhausting the fuel is the timeout. -/
def lockLoop (env : Nat → CreateOutcome) : Nat → Nat → LockResult × List LockAction
  | _, 0 => (.timeout, [])
  | i, fuel + 1 =>
    match env i with
    | .created => (.acquired i, [.create i])
    | .existsAge ageSec removeOk =>
      if 30 < ageSec then
        if removeOk then
          let res := lockLoop env (i + 1) fuel
          (res.1, .create i :: .removeStale i :: res.2)
        else
          (.removeError i, [.create i])
      else
        let res := lockLoop env (i + 1) fuel
        (res.1, .create i :: .sleep 100 :: res.2)
    | .existsStatErr =>
      let res := lockLoop env (i + 1) fuel
      (res.1, .create i :: .sleep 100 :: res.2)
    | .createErr => (.createError i, [.create i])

/-- `acquireFileLock`: the retry loop started at attempt 0 with
`maxRetries = 50`. -/
def acquireFileLock (env : Nat → CreateOutcome) : LockResult × List LockAction :=
  lockLoop env 0 50

/-- Number of exclusive-create attempts in an action trace. -/
def createCount (as : List LockAction) : Nat :=
  as.countP (fun a => match a with | .create _ => true | _ => false)

/-! ## PKCE generation (GeneratePKCE)

`GeneratePKCE` draws 32 bytes from `crypto/rand` and derives the verifier
and challenge deterministically from them; the random draw is modelled by
passing the drawn bytes in. Bytes are `Nat` values below 256. -/

/-- The URL-safe base64 alphabet of `base64.RawURLEncoding`. -/
def b64urlAlphabet : List Char :=
  "ABCDEFGHIJKLMNOPQRSTUVWXYZabcdefghijklmnopqrstuvwxyz0123456789-_".data

/-- Character for a 6-bit group. -/
def b64Char (n : Nat) : Char := b64urlAlphabet.getD n 'A'

/-- `base64.RawURLEncoding.EncodeToString`: unpadded base64url encoding of
a byte sequence, three bytes to four characters, with two- and one-byte
tails encoded into three and two characters. -/
def base64urlEncode : List Nat → List Char
  | b1 :: b2 :: b3 :: rest =>
    b64Char (b1 / 4) :: b64Char (b1 % 4 * 16 + b2 / 16) ::
      b64Char (b2 % 16 * 4 + b3 / 64) :: b64Char (b3 % 64) :: base64urlEncode rest
  | [b1, b2] => [b64Char (b1 / 4), b64Char (b1 % 4 * 16 + b2 / 16), b64Char (b2 % 16 * 4)]
  | [b1] => [b64Char (b1 / 4), b64Char (b1 % 4 * 16)]
  | [] => []

/-- Reduction modulo 2^32, the word size of SHA-256 arithmetic. -/
def w32 (x : Nat) : Nat := x % 4294967296

/-- Right rotation of a 32-bit word. -/
def rotr32 (n x : Nat) : Nat := w32 ((x >>> n) ||| (x <<< (32 - n)))

/-- SHA-256 σ0. -/
def smallSigma0 (x : Nat) : Nat := rotr32 7 x ^^^ rotr32 18 x ^^^ (x >>> 3)

/-- SHA-256 σ1. -/
def smallSigma1 (x : Nat) : Nat := rotr32 17 x ^^^ rotr32 19 x ^^^ (x >>> 10)

/-- SHA-256 Σ0. -/
def bigSigma0 (x : Nat) : Nat := rotr32 2 x ^^^ rotr32 13 x ^^^ rotr32 22 x

/-- SHA-256 Σ1. -/
def bigSigma1 (x : Nat) : Nat := rotr32 6 x ^^^ rotr32 11 x ^^^ rotr32 25 x

/-- SHA-256 Ch, with bitwise complement taken inside 32 bits. -/
def chWord (x y z : Nat) : Nat := (x &&& y) ^^^ ((x ^^^ 4294967295) &&& z)

/-- SHA-256 Maj. -/
def majWord (x y z : Nat) : Nat := (x &&& y) ^^^ (x &&& z) ^^^ (y &&& z)

/-- The 64 SHA-256 round constants (FIPS 180-4, written in decimal). -/
def sha256K : Array Nat := #[
  1116352408, 1899447441, 3049323471, 3921009573, 961987163,
  1508970993, 2453635748, 2870763221, 3624381080, 310598401,
  607225278, 1426881987, 1925078388, 2162078206, 2614888103,
  3248222580, 3835390401, 4022224774, 264347078, 604807628,
  770255983, 1249150122, 1555081692, 1996064986, 2554220882,
  2821834349, 2952996808, 3210313671, 3336571891, 3584528711,
  113926993, 338241895, 666307205, 773529912, 1294757372,
  1396182291, 1695183700, 1986661051, 2177026350, 2456956037,
  2730485921, 2820302411, 3259730800, 3345764771, 3516065817,
  3600352804, 4094571909, 275423344, 430227734, 506948616,
  659060556, 883997877, 958139571, 1322822218, 1537002063,
  1747873779, 1955562222, 2024104815, 2227730452, 2361852424,
  2428436474, 2756734187, 3204031479, 3329325298]

/-- The SHA-256 initial hash value (FIPS 180-4, written in decimal). -/
def sha256H0 : Array Nat :=
  #[1779033703, 3144134277, 1013904242, 2773480762,
    1359893119, 2600822924, 528734635, 1541459225]

/-- Big-endian 32-bit words from a byte list (dropping a ragged tail, which
never arises on 64-byte blocks). -/
def wordsOfBytes : List Nat → List Nat
  | b0 :: b1 :: b2 :: b3 :: rest =>
    (((b0 * 256 + b1) * 256 + b2) * 256 + b3) :: wordsOfBytes rest
  | _ => []

/-- SHA-256 padding: append `0x80`, zero bytes up to 56 mod 64, then the
bit length as 8 big-endian bytes. -/
def sha256Pad (msg : List Nat) : List Nat :=
  let L := msg.length
  msg ++ 0x80 :: List.replicate ((119 - L % 64) % 64) 0 ++
    (List.range 8).map (fun i => ((8 * L) >>> (8 * (7 - i))) % 256)

/-- The 64-entry message schedule from one 16-word block. -/
def msgSchedule (ws : Array Nat) : Array Nat := Id.run do
  let mut w := ws
  for i in [16:64] do
    w := w.push (w32 (smallSigma1 w[i - 2]! + w[i - 7]! +
      smallSigma0 w[i - 15]! + w[i - 16]!))
  return w

/-- The SHA-256 compression function over one 64-byte block. -/
def sha256Compress (hv : Array Nat) (block : List Nat) : Array Nat := Id.run do
  let w := msgSchedule (wordsOfBytes block).toArray
  let mut a := hv[0]!
  let mut b := hv[1]!
  let mut c := hv[2]!
  let mut d := hv[3]!
  let mut e := hv[4]!
  let mut f := hv[5]!
  let mut g := hv[6]!
  let mut hh := hv[7]!
  for i in [0:64] do
    let t1 := w32 (hh + bigSigma1 e + chWord e f g + sha256K[i]! + w[i]!)
    let t2 := w32 (bigSigma0 a + majWord a b c)
    hh := g
    g := f
    f := e
    e := w32 (d + t1)
    d := c
    c := b
    b := a
    a := w32 (t1 + t2)
  return #[w32 (hv[0]! + a), w32 (hv[1]! + b), w32 (hv[2]! + c), w32 (hv[3]! + d),
    w32 (hv[4]! + e), w32 (hv[5]! + f), w32 (hv[6]! + g), w32 (hv[7]! + hh)]

/-- Fold the compression function over the given number of 64-byte
blocks. -/
def sha256Iter : Nat → Array Nat → List Nat → Array Nat
  | 0, hv, _ => hv
  | n + 1, hv, bytes => sha256Iter n (sha256Compress hv (bytes.take 64)) (bytes.drop 64)

/-- `sha256.Sum256`: the 32-byte SHA-256 digest of a byte sequence. -/
def sha256Bytes (msg : List Nat) : List Nat :=
  let padded := sha256Pad msg
  let hFinal := sha256Iter (padded.length / 64) sha256H0 padded
  hFinal.toList.flatMap (fun x =>
    [(x >>> 24) % 256, (x >>> 16) % 256, (x >>> 8) % 256, x % 256])

/-- `PKCEParams` mirrors the Go struct. -/
structure PKCEParams where
  verifier : String
  challenge : String
  method : String
  deriving Repr, DecidableEq

/-- The ASCII bytes of a string (the verifier consists of base64url
characters, all ASCII). -/
def asciiBytes (s : String) : List Nat := s.data.map Char.toNat

/-- `GeneratePKCE` on the 32 bytes drawn from the entropy source: verifier
is their unpadded base64url encoding, challenge the unpadded base64url
encoding of the SHA-256 digest of the verifier's ASCII bytes, method is the
literal `S256`. -/
def GeneratePKCE (randomBytes : List Nat) : PKCEParams :=
  let verifier := String.mk (base64urlEncode randomBytes)
  let sum := sha256Bytes (asciiBytes verifier)
  let challenge := String.mk (base64urlEncode sum)
  { verifier := verifier, challenge := challenge, method := "S256" }

/-! ## The callback listener's shared state and handler goroutines

`startCallbackServer` shares exactly two pieces of mutable state between
the handler goroutines: the `sync.Once`-guarded send into the 1-buffered
`resultCh`, and the `sync.Once`-guarded token exchange together with its
captured `exchangeStorage`/`exchangeErr`. Each `Once.Do` is one atomic
region (Go's `sync.Once` blocks a second caller until the first body
completes, so its body is linearizable); everything else a handler does is
local to the request. An execution is therefore modelled as an arbitrary
interleaving (schedule) of the handlers' atomic steps against the shared
state. Ghost counters record how often the exchange function actually runs
and how often a result is actually delivered into the channel. -/

/-- `callbackResult` mirrors the Go struct delivered on `resultCh`. -/
structure callbackResult where
  storage : Option TokenStorage
  error : String
  desc : String
  deriving Repr, DecidableEq

/-- The shared state of one `startCallbackServer` invocation, plus ghost
counters (`deliveries`, `exchangeCalls`) counting the effects that actually
happened. -/
structure ListenerState where
  resultSlot : Option callbackResult
  sendOnceDone : Bool
  exchangeOnceDone : Bool
  exchangeStorage : Option TokenStorage
  exchangeErr : Option String
  deliveries : Nat
  exchangeCalls : Nat
  deriving Repr, DecidableEq

/-- The listener state at the top of `startCallbackServer`, before any
request arrives. -/
def initialListenerState : ListenerState :=
  { resultSlot := none, sendOnceDone := false, exchangeOnceDone := false,
    exchangeStorage := none, exchangeErr := none, deliveries := 0, exchangeCalls := 0 }

/-- `sendResult`: `once.Do(func() { resultCh <- r })`. The first call
stores `r` into the 1-buffered channel without blocking; later calls are
no-ops, so the sending goroutine is never blocked. -/
def sendResult (s : ListenerState) (r : callbackResult) : ListenerState :=
  if s.sendOnceDone then s
  else { s with sendOnceDone := true, resultSlot := some r,
                deliveries := s.deliveries + 1 }

/-- `exchangeOnce.Do`: the first caller runs `exchangeFn` on its code and
stores the outcome in the captured `exchangeStorage`/`exchangeErr`; later
callers observe that stored outcome without running the exchange again. The
exchange function is modelled as a pure function from the code to the
`(storage, error)` pair. -/
def exchangeOnceDo (fn : String → Option TokenStorage × Option String)
    (code : String) (s : ListenerState) : ListenerState :=
  if s.exchangeOnceDone then s
  else
    let r := fn code
    { s with exchangeOnceDone := true, exchangeStorage := r.1, exchangeErr := r.2,
             exchangeCalls := s.exchangeCalls + 1 }

/-- The HTML page a handler writes: `writeCallbackPage`'s arguments. -/
structure CallbackPage where
  success : Bool
  errCode : String
  errDesc : String
  deriving Repr, DecidableEq

/-- Control state of one handler goroutine for one HTTP request: about to
classify its query; past its `exchangeOnce.Do` and about to inspect the
stored exchange outcome; or finished, its response page written. -/
inductive HandlerPhase where
  | start (q : CallbackQuery)
  | afterExchange
  | done (page : CallbackPage)
  deriving Repr, DecidableEq

/-- One atomic step of a handler goroutine against the shared state,
following the `/callback` handler body: a request classified as a failure
writes the failure page and makes its (at most one) `sendResult` attempt;
a request carrying a valid code enters `exchangeOnce.Do`; past the
exchange, the handler reads the stored `exchangeErr` and writes the success
or failure page before its `sendResult` attempt. A finished handler does
nothing. -/
def stepHandler (fn : String → Option TokenStorage × Option String)
    (expectedState : String) (s : ListenerState) :
    HandlerPhase → ListenerState × HandlerPhase
  | .start q =>
    match classifyCallback expectedState q with
    | .failure c d =>
      (sendResult s { storage := none, error := c, desc := d },
       .done { success := false, errCode := c, errDesc := d })
    | .runExchange code => (exchangeOnceDo fn code s, .afterExchange)
  | .afterExchange =>
    match s.exchangeErr with
    | some e =>
      (sendResult s { storage := none, error := "token_exchange_failed", desc := e },
       .done { success := false, errCode := "token_exchange_failed", errDesc := e })
    | none =>
      (sendResult s { storage := s.exchangeStorage, error := "", desc := "" },
       .done { success := true, errCode := "", errDesc := "" })
  | .done page => (s, .done page)

/-- Run an interleaving: the schedule names, step by step, which in-flight
handler moves next (out-of-range indices are skipped). This covers every
interleaving of the handlers' atomic steps. -/
def runSchedule (fn : String → Option TokenStorage × Option String)
    (expectedState : String) :
    ListenerState × List HandlerPhase → List Nat → ListenerState × List HandlerPhase
  | conf, [] => conf
  | (s, hs), i :: rest =>
    match hs[i]? with
    | none => runSchedule fn expectedState (s, hs) rest
    | some h =>
      let (s', h') := stepHandler fn expectedState s h
      runSchedule fn expectedState (s', hs.set i h') rest

/-- A fresh listener instance with one handler goroutine per incoming
request. -/
def initialConfig (qs : List CallbackQuery) : ListenerState × List HandlerPhase :=
  (initialListenerState, qs.map .start)

/-- Two consecutive steps of one handler goroutine (enough for any request
to finish, whatever the shared state). -/
def stepHandlerTwice (fn : String → Option TokenStorage × Option String)
    (expectedState : String) (s : ListenerState) (h : HandlerPhase) :
    ListenerState × HandlerPhase :=
  let (s1, h1) := stepHandler fn expectedState s h
  stepHandler fn expectedState s1 h1

/-!
# Theorems

Supporting lemmas first, then one theorem per claim (with a witness where
the theorem carries hypotheses).
-/

theorem base64urlEncode_length (l : List Nat) :
    (base64urlEncode l).length =
      4 * (l.length / 3) + (if l.length % 3 = 0 then 0 else l.length % 3 + 1) := by
  induction l using base64urlEncode.induct
  all_goals simp [base64urlEncode, *]
  all_goals split_ifs
  all_goals omega

/-- The ghost counters track the two once-guards exactly. -/
def ListenerInv (s : ListenerState) : Prop :=
  s.deliveries = (if s.sendOnceDone then 1 else 0) ∧
  s.exchangeCalls = (if s.exchangeOnceDone then 1 else 0)

theorem listenerInv_initial : ListenerInv initialListenerState := by
  simp [ListenerInv, initialListenerState]

theorem listenerInv_sendResult (s : ListenerState) (r : callbackResult)
    (h : ListenerInv s) : ListenerInv (sendResult s r) := by
  unfold ListenerInv sendResult at *
  split <;> simp_all

theorem listenerInv_exchangeOnceDo (fn : String → Option TokenStorage × Option String)
    (code : String) (s : ListenerState) (h : ListenerInv s) :
    ListenerInv (exchangeOnceDo fn code s) := by
  unfold ListenerInv exchangeOnceDo at *
  split <;> simp_all

theorem listenerInv_stepHandler (fn : String → Option TokenStorage × Option String)
    (es : String) (s : ListenerState) (h : HandlerPhase) (hI : ListenerInv s) :
    ListenerInv (stepHandler fn es s h).1 := by
  cases h with
  | start q =>
    cases hc : classifyCallback es q with
    | failure c d =>
      simpa only [stepHandler, hc] using listenerInv_sendResult _ _ hI
    | runExchange code =>
      simpa only [stepHandler, hc] using listenerInv_exchangeOnceDo fn code _ hI
  | afterExchange =>
    cases he : s.exchangeErr with
    | some e => simpa only [stepHandler, he] using listenerInv_sendResult _ _ hI
    | none => simpa only [stepHandler, he] using listenerInv_sendResult _ _ hI
  | done page => exact hI

theorem listenerInv_runSchedule (fn : String → Option TokenStorage × Option String)
    (es : String) (s : ListenerState) (hs : List HandlerPhase) (sched : List Nat)
    (hI : ListenerInv s) : ListenerInv (runSchedule fn es (s, hs) sched).1 := by
  induction sched generalizing s hs with
  | nil => exact hI
  | cons i rest ih =>
    unfold runSchedule
    cases hget : hs[i]? with
    | none => exact ih s hs hI
    | some h => exact ih _ _ (listenerInv_stepHandler fn es s h hI)

theorem handler_completes_aux (fn : String → Option TokenStorage × Option String)
    (es : String) (s : ListenerState) (q : CallbackQuery) :
    ∃ page, (stepHandlerTwice fn es s (.start q)).2 = .done page := by
  unfold stepHandlerTwice
  cases hc : classifyCallback es q with
  | failure c d =>
    exact ⟨{ success := false, errCode := c, errDesc := d },
      by simp only [stepHandler, hc]⟩
  | runExchange code =>
    simp only [stepHandler, hc]
    cases he : (exchangeOnceDo fn code s).exchangeErr with
    | none =>
      exact ⟨{ success := true, errCode := "", errDesc := "" },
        by simp only [stepHandler, he]⟩
    | some e =>
      exact ⟨{ success := false, errCode := "token_exchange_failed", errDesc := e },
        by simp only [stepHandler, he]⟩

/-- C1: at most one delivery, at most one exchange, every handler finishes. -/
theorem startCallbackServer_single_delivery_exchange_once
    (fn : String → Option TokenStorage × Option String) (es : String)
    (qs : List CallbackQuery) (sched : List Nat) :
    (runSchedule fn es (initialConfig qs) sched).1.deliveries ≤ 1 ∧
    (runSchedule fn es (initialConfig qs) sched).1.exchangeCalls ≤ 1 ∧
    ∀ (s : ListenerState) (q : CallbackQuery), ∃ page,
      (stepHandlerTwice fn es s (.start q)).2 = .done page := by
  have hI := listenerInv_runSchedule fn es initialListenerState (qs.map .start) sched
    listenerInv_initial
  obtain ⟨h1, h2⟩ := hI
  refine ⟨?_, ?_, fun s q => handler_completes_aux fn es s q⟩ <;>
    rw [initialConfig] <;> first
      | (rw [h1]; split <;> omega)
      | (rw [h2]; split <;> omega)

/-- C2: classification order of the callback handler. -/
theorem callback_classification_order (es : String) (q : CallbackQuery) :
    (qGet q "error" ≠ "" →
      classifyCallback es q = .failure (qGet q "error") (qGet q "error_description")) ∧
    (qGet q "error" = "" → qGet q "state" ≠ es →
      classifyCallback es q = .failure "state_mismatch" "state parameter mismatch") ∧
    (qGet q "error" = "" → qGet q "state" = es → qGet q "code" = "" →
      classifyCallback es q = .failure "missing_code" "code parameter missing") ∧
    (qGet q "error" = "" → qGet q "state" = es → qGet q "code" ≠ "" →
      classifyCallback es q = .runExchange (qGet q "code")) ∧
    (∀ (fn : String → Option TokenStorage × Option String) (s : ListenerState)
        (c d : String), classifyCallback es q = .failure c d →
      (stepHandler fn es s (.start q)).1.exchangeCalls = s.exchangeCalls ∧
      (stepHandler fn es s (.start q)).2 =
        .done { success := false, errCode := c, errDesc := d }) := by
  refine ⟨fun he => ?_, fun he hs => ?_, fun he hs hc => ?_, fun he hs hc => ?_,
    fun fn s c d hf => ?_⟩
  · simp [classifyCallback, he]
  · simp [classifyCallback, he, hs]
  · simp [classifyCallback, he, hs, hc]
  · simp [classifyCallback, he, hs, hc]
  · constructor
    · simp only [stepHandler, hf, sendResult]
      split <;> rfl
    · simp only [stepHandler, hf]

/-- C2 witness. -/
theorem callback_classification_order_witness :
    classifyCallback "st" ⟨[("error", "access_denied"), ("error_description", "no")]⟩ =
      .failure "access_denied" "no" ∧
    classifyCallback "st" ⟨[("state", "zz")]⟩ =
      .failure "state_mismatch" "state parameter mismatch" ∧
    classifyCallback "st" ⟨[("state", "st")]⟩ =
      .failure "missing_code" "code parameter missing" ∧
    classifyCallback "st" ⟨[("state", "st"), ("code", "abc")]⟩ = .runExchange "abc" :=
  ⟨(callback_classification_order "st" _).1 (by decide),
   (callback_classification_order "st" _).2.1 (by decide) (by decide),
   (callback_classification_order "st" _).2.2.1 (by decide) (by decide) (by decide),
   by
     have h := (callback_classification_order "st"
       ⟨[("state", "st"), ("code", "abc")]⟩).2.2.2.1 (by decide) (by decide) (by decide)
     simpa using h⟩

/-- C10: with empty expectedState, absent error/state params pass the state
check; a non-empty code then reaches the exchange. -/
theorem emptyExpectedState_absent_params_reach_exchange (q : CallbackQuery)
    (he : hasParam q "error" = false) (hs : hasParam q "state" = false)
    (hc : qGet q "code" ≠ "") :
    qGet q "state" = "" ∧
    classifyCallback "" q = .runExchange (qGet q "code") := by
  have habs : ∀ k, hasParam q k = false → qGet q k = "" := by
    intro k hk
    unfold hasParam at hk
    unfold qGet
    cases hfind : q.params.find? (fun p => p.1 == k) with
    | none => rfl
    | some p =>
      have hmem := List.mem_of_find?_eq_some hfind
      have hpred := List.find?_some hfind
      have := List.any_eq_false.mp hk p hmem
      simp_all
  have hstate : qGet q "state" = "" := habs _ hs
  have herror : qGet q "error" = "" := habs _ he
  refine ⟨hstate, ?_⟩
  simp [classifyCallback, herror, hstate, hc]

/-- C10 witness. -/
theorem emptyExpectedState_absent_params_reach_exchange_witness :
    classifyCallback "" ⟨[("code", "abc")]⟩ = .runExchange "abc" := by
  have h := (emptyExpectedState_absent_params_reach_exchange ⟨[("code", "abc")]⟩
    (by decide) (by decide) (by decide)).2
  simpa using h

/-- C4: validateTokenResponse rejects exactly the spec's cases. -/
theorem validateTokenResponse_iff (tok tokenType : String) (expiresIn : Int) :
    (validateTokenResponse tok tokenType expiresIn).isSome ↔
      (tok = "" ∨ tok.length < 10 ∨ expiresIn ≤ 0 ∨
        (tokenType ≠ "" ∧ tokenType ≠ "Bearer")) := by
  unfold validateTokenResponse
  split_ifs <;> simp_all

/-- C3: saving one client's tokens never disturbs another client's entry,
and loading returns exactly the entry stored under the requested id. -/
theorem tokenStore_frame_and_load_own_entry (cfg : String) (storage : TokenStorage)
    (m : TokenMap) (k : String)
    (hk : k ≠ (effectiveStorage cfg storage).clientID)
    (cid : String) (file : Option TokenMap) (st : TokenStorage)
    (hload : loadTokens cid file = .ok st) :
    saveTokens cfg storage (some m) k = m k ∧
    ∃ m2, file = some m2 ∧ m2 cid = some st := by
  constructor
  · simp [saveTokens, hk]
  · cases file with
    | none => simp [loadTokens] at hload
    | some m2 =>
      refine ⟨m2, rfl, ?_⟩
      unfold loadTokens at hload
      cases hm : m2 cid with
      | none => simp [hm] at hload
      | some s2 => simp [hm] at hload; rw [hload]

/-- C3 witness. -/
theorem tokenStore_frame_and_load_own_entry_witness :
    (let stA : TokenStorage :=
      { accessToken := "aaaaaaaaaaaa", refreshToken := "r1", tokenType := "Bearer",
        expiresAt := 100, clientID := "client-a" }
     let stB : TokenStorage :=
      { accessToken := "bbbbbbbbbbbb", refreshToken := "r2", tokenType := "Bearer",
        expiresAt := 200, clientID := "client-b" }
     let m : TokenMap := fun k => if k = "client-a" then some stA else none
     saveTokens "client-b" stB (some m) "client-a" = m "client-a" ∧
     ∃ m2, (some m : Option TokenMap) = some m2 ∧ m2 "client-a" = some stA) := by
  intro stA stB m
  exact tokenStore_frame_and_load_own_entry "client-b" stB m "client-a"
    (by decide) "client-a" (some m) stA (by rfl)

/-- An attempt outcome after which `acquireFileLock` retries rather than
returning: the lock file existed and was either fresh, unstattable, or
stale-but-removable. -/
def retriableOutcome : CreateOutcome → Prop
  | .created => False
  | .existsAge ageSec removeOk => 30 < ageSec → removeOk = true
  | .existsStatErr => True
  | .createErr => False

theorem createCount_lockLoop_le (env : Nat → CreateOutcome) (fuel i : Nat) :
    createCount (lockLoop env i fuel).2 ≤ fuel := by
  induction fuel generalizing i with
  | zero => simp [lockLoop, createCount]
  | succ n ih =>
    unfold lockLoop
    cases henv : env i with
    | created => simp [createCount]
    | existsAge ageSec removeOk =>
      have hih := ih (i + 1)
      simp only [createCount] at hih ⊢
      split_ifs <;> simp <;> omega
    | existsStatErr =>
      have hih := ih (i + 1)
      simp only [createCount] at hih ⊢
      simp
      omega
    | createErr => simp [createCount]

theorem lockLoop_timeout (env : Nat → CreateOutcome) (fuel i : Nat)
    (h : ∀ j, i ≤ j → j < i + fuel → retriableOutcome (env j)) :
    (lockLoop env i fuel).1 = .timeout := by
  induction fuel generalizing i with
  | zero => simp [lockLoop]
  | succ n ih =>
    have hi := h i (Nat.le_refl i) (by omega)
    have hnext := ih (i + 1) (fun j h1 h2 => h j (by omega) (by omega))
    unfold lockLoop
    cases henv : env i with
    | created => rw [henv] at hi; exact absurd hi (by simp [retriableOutcome])
    | existsAge ageSec removeOk =>
      rw [henv] at hi
      by_cases hage : 30 < ageSec
      · have hrok : removeOk = true := hi hage
        subst hrok
        simpa [hage] using hnext
      · simpa [hage] using hnext
    | existsStatErr => simpa using hnext
    | createErr => rw [henv] at hi; exact absurd hi (by simp [retriableOutcome])

/-- C6: bounded attempts, timeout after 50 retriable failures, and the
per-attempt behaviors (success, stale removal with immediate retry, sleep
and retry). -/
theorem acquireFileLock_spec (env : Nat → CreateOutcome) :
    createCount (acquireFileLock env).2 ≤ 50 ∧
    ((∀ i, i < 50 → retriableOutcome (env i)) →
      (acquireFileLock env).1 = .timeout) ∧
    (∀ i fuel, env i = .created →
      lockLoop env i (fuel + 1) = (.acquired i, [.create i])) ∧
    (∀ i fuel ageSec, env i = .existsAge ageSec true → 30 < ageSec →
      lockLoop env i (fuel + 1) =
        ((lockLoop env (i + 1) fuel).1,
          .create i :: .removeStale i :: (lockLoop env (i + 1) fuel).2)) ∧
    (∀ i fuel ageSec removeOk, env i = .existsAge ageSec removeOk → ageSec ≤ 30 →
      lockLoop env i (fuel + 1) =
        ((lockLoop env (i + 1) fuel).1,
          .create i :: .sleep 100 :: (lockLoop env (i + 1) fuel).2)) := by
  refine ⟨createCount_lockLoop_le env 50 0, fun h => ?_, ?_, ?_, ?_⟩
  · exact lockLoop_timeout env 50 0 (fun j h1 h2 => h j (by omega))
  · intro i fuel henv
    conv_lhs => rw [lockLoop, henv]
  · intro i fuel ageSec henv hage
    conv_lhs => rw [lockLoop, henv]
    simp [hage]
  · intro i fuel ageSec removeOk henv hage
    conv_lhs => rw [lockLoop, henv]
    simp [Nat.not_lt.mpr hage]

/-- C6 witness. -/
theorem acquireFileLock_spec_witness :
    (acquireFileLock (fun _ => .existsStatErr)).1 = .timeout :=
  (acquireFileLock_spec (fun _ => .existsStatErr)).2.1 (fun _ _ => trivial)

/-- C7: on rename failure the temp-file removal is attempted, the returned
error carries the original rename error (plus the removal error when that
fails too), and the token file is untouched. -/
theorem saveTokensWrite_rename_failure (oracle : FSOracle) (data : List Nat)
    (fs : FSState) (re : String)
    (hw : oracle.writeErr = none) (hr : oracle.renameErr = some re) :
    (saveTokensWrite oracle data fs).2.2.removeAttempted = true ∧
    (saveTokensWrite oracle data fs).2.1 = some (.renameFailed re oracle.removeErr) ∧
    (saveTokensWrite oracle data fs).1.target = fs.target := by
  unfold saveTokensWrite
  rw [hw, hr]
  cases oracle.removeErr <;> simp

/-- C7 witness. -/
theorem saveTokensWrite_rename_failure_witness :
    (saveTokensWrite ⟨none, some "disk full", none⟩ [1, 2] ⟨some [9], none⟩).2.2.removeAttempted
        = true ∧
    (saveTokensWrite ⟨none, some "disk full", none⟩ [1, 2] ⟨some [9], none⟩).2.1
        = some (.renameFailed "disk full" none) ∧
    (saveTokensWrite ⟨none, some "disk full", none⟩ [1, 2] ⟨some [9], none⟩).1.target
        = some [9] :=
  saveTokensWrite_rename_failure ⟨none, some "disk full", none⟩ [1, 2]
    ⟨some [9], none⟩ "disk full" rfl rfl

theorem refreshAccessToken_status200_not_expired (cfg rt : String) (now : Nat)
    (resp : RefreshHTTPResponse) (hs : resp.status = 200) :
    refreshAccessToken cfg rt now resp ≠ .error .refreshTokenExpired := by
  unfold refreshAccessToken
  rw [if_neg (by simp [hs])]
  cases hp : resp.parsedToken with
  | none => intro h; simp at h
  | some t =>
    cases hv : validateTokenResponse t.accessToken t.tokenType t.expiresIn with
    | some m => intro h; simp [hv] at h
    | none => intro h; simp [hv] at h

/-- C8: `ErrRefreshTokenExpired` is returned exactly for a non-200 response
whose body unmarshals into an error object with `invalid_grant` or
`invalid_token`; other non-200 responses carry the server's code and
description, or its status and body. -/
theorem refreshAccessToken_expired_iff (cfg rt : String) (now : Nat)
    (resp : RefreshHTTPResponse) :
    (refreshAccessToken cfg rt now resp = .error .refreshTokenExpired ↔
      (resp.status ≠ 200 ∧ ∃ e, resp.parsedError = some e ∧
        (e.error = "invalid_grant" ∨ e.error = "invalid_token"))) ∧
    (resp.status ≠ 200 → ∀ e, resp.parsedError = some e →
      e.error ≠ "invalid_grant" → e.error ≠ "invalid_token" →
      refreshAccessToken cfg rt now resp =
        .error (.oauthError e.error e.errorDescription)) ∧
    (resp.status ≠ 200 → resp.parsedError = none →
      refreshAccessToken cfg rt now resp =
        .error (.statusError resp.status resp.body)) := by
  refine ⟨⟨fun h => ?_, fun h => ?_⟩, fun hs e he h1 h2 => ?_, fun hs he => ?_⟩
  · by_cases hs : resp.status = 200
    · exact absurd h (refreshAccessToken_status200_not_expired cfg rt now resp hs)
    · refine ⟨hs, ?_⟩
      unfold refreshAccessToken at h
      rw [if_pos hs] at h
      cases hp : resp.parsedError with
      | none => simp only [hp] at h; simp at h
      | some e =>
        simp only [hp] at h
        refine ⟨e, rfl, ?_⟩
        by_contra hor
        rw [if_neg hor] at h
        simp at h
  · obtain ⟨hs, e, he, hor⟩ := h
    unfold refreshAccessToken
    rw [if_pos hs]
    simp only [he]
    rw [if_pos hor]
  · unfold refreshAccessToken
    rw [if_pos hs]
    simp only [he]
    rw [if_neg (by simp [h1, h2])]
  · unfold refreshAccessToken
    rw [if_pos hs]
    simp only [he]

/-- C8 witness. -/
theorem refreshAccessToken_expired_iff_witness :
    refreshAccessToken "cid" "rt" 0
        ⟨400, "b", some ⟨"invalid_grant", "expired"⟩, none⟩ =
      .error .refreshTokenExpired :=
  (refreshAccessToken_expired_iff "cid" "rt" 0
      ⟨400, "b", some ⟨"invalid_grant", "expired"⟩, none⟩).1.mpr
    ⟨by decide, ⟨"invalid_grant", "expired"⟩, rfl, Or.inl rfl⟩

/-- C9: a successful refresh takes access token, token type, and expiry
from the response, keeps the response's refresh token when non-empty, falls
back to the previous one otherwise, and the same token set is what gets
filed under its client id on save. -/
theorem refreshAccessToken_rotation (cfg rt : String) (now : Nat)
    (resp : RefreshHTTPResponse) (t : TokenResponse) (st : TokenStorage)
    (ht : resp.parsedToken = some t)
    (hok : refreshAccessToken cfg rt now resp = .ok st) :
    st.accessToken = t.accessToken ∧ st.tokenType = t.tokenType ∧
    st.expiresAt = now + t.expiresIn.toNat ∧
    (t.refreshToken ≠ "" → st.refreshToken = t.refreshToken) ∧
    (t.refreshToken = "" → st.refreshToken = rt) ∧
    (∀ file, saveTokens cfg st file st.clientID = some st) := by
  unfold refreshAccessToken at hok
  by_cases hs : resp.status ≠ 200
  · rw [if_pos hs] at hok
    cases hp : resp.parsedError with
    | none => simp [hp] at hok
    | some e =>
      simp only [hp] at hok
      split_ifs at hok
  · rw [if_neg hs] at hok
    simp only [ht] at hok
    cases hv : validateTokenResponse t.accessToken t.tokenType t.expiresIn with
    | some m => simp [hv] at hok
    | none =>
      simp only [hv] at hok
      injection hok with hst
      subst hst
      refine ⟨rfl, rfl, rfl, fun h => by simp [h], fun h => by simp [h], fun file => ?_⟩
      simp only [saveTokens, effectiveStorage]
      split <;> simp

/-- C9 witness. -/
theorem refreshAccessToken_rotation_witness :
    refreshAccessToken "cid" "oldrt" 5
      { status := 200, body := "", parsedError := none,
        parsedToken := some
          { accessToken := "aaaaaaaaaaaa", refreshToken := "", tokenType := "Bearer",
            expiresIn := 60 } } =
      .ok { accessToken := "aaaaaaaaaaaa", refreshToken := "oldrt", tokenType := "Bearer",
            expiresAt := 65, clientID := "cid" } ∧
    ({ accessToken := "aaaaaaaaaaaa", refreshToken := "oldrt", tokenType := "Bearer",
       expiresAt := 65, clientID := "cid" } : TokenStorage).refreshToken = "oldrt" := by
  have hok : refreshAccessToken "cid" "oldrt" 5
      { status := 200, body := "", parsedError := none,
        parsedToken := some
          { accessToken := "aaaaaaaaaaaa", refreshToken := "", tokenType := "Bearer",
            expiresIn := 60 } } =
      .ok { accessToken := "aaaaaaaaaaaa", refreshToken := "oldrt", tokenType := "Bearer",
            expiresAt := 65, clientID := "cid" } := by rfl
  exact ⟨hok, (refreshAccessToken_rotation "cid" "oldrt" 5 _ _ _ rfl hok).2.2.2.2.1 rfl⟩

/-- C5: for every 32-byte draw, the verifier is its unpadded base64url
encoding and has length 43 (within [43,128]), the challenge is the unpadded
base64url encoding of the SHA-256 digest of the verifier's ASCII bytes, and
the method is S256. -/
theorem GeneratePKCE_spec (b : List Nat) (hb : b.length = 32) :
    (GeneratePKCE b).verifier = String.mk (base64urlEncode b) ∧
    (GeneratePKCE b).verifier.length = 43 ∧
    43 ≤ (GeneratePKCE b).verifier.length ∧
    (GeneratePKCE b).verifier.length ≤ 128 ∧
    (GeneratePKCE b).challenge =
      String.mk (base64urlEncode (sha256Bytes (asciiBytes (GeneratePKCE b).verifier))) ∧
    (GeneratePKCE b).method = "S256" := by
  have h1 : (GeneratePKCE b).verifier.length = (base64urlEncode b).length := rfl
  have hlen : (GeneratePKCE b).verifier.length = 43 := by
    rw [h1, base64urlEncode_length, hb]
    decide
  exact ⟨rfl, hlen, by omega, by omega, rfl, rfl⟩

/-- C5 witness. -/
theorem GeneratePKCE_spec_witness :
    (List.replicate 32 0 : List Nat).length = 32 ∧
    ((GeneratePKCE (List.replicate 32 0)).verifier =
        String.mk (base64urlEncode (List.replicate 32 0)) ∧
      (GeneratePKCE (List.replicate 32 0)).verifier.length = 43 ∧
      43 ≤ (GeneratePKCE (List.replicate 32 0)).verifier.length ∧
      (GeneratePKCE (List.replicate 32 0)).verifier.length ≤ 128 ∧
      (GeneratePKCE (List.replicate 32 0)).challenge =
        String.mk (base64urlEncode (sha256Bytes
          (asciiBytes (GeneratePKCE (List.replicate 32 0)).verifier))) ∧
      (GeneratePKCE (List.replicate 32 0)).method = "S256") :=
  ⟨by decide, GeneratePKCE_spec (List.replicate 32 0) (by decide)⟩

end OAuthCli
